import Mathlib

/-!
# Label Transformation Engine — shallow embedding of `labelwrangler.py`

This file embeds the label-column commands of `labelwrangler.py`
(`deduplicate`, `remove`, `merge`, `random_downsample`) as executable Lean
definitions over an in-memory table model, and proves or refutes the
specified properties about them.

Modelling conventions:

* A pandas `DataFrame` loaded from CSV is a `Table`: a list of column names
  plus a list of rows, each row a list of cell values aligned positionally
  with the column list.  A cell is a string or the missing value `NaN`
  (`Val.na`).
* Python `s.split(",")` is `pySplit`: split at every comma, keep empty
  pieces, return `[""]` on the empty string, never trim.  `x.strip()` is
  `pyStrip`: drop leading and trailing whitespace.
* pandas `series.isin(xs)` on a list of strings is `isinStrs`: a `NaN` cell
  is never a member.  `series == lbl` on a string `lbl` is equality with
  `Val.str lbl`; a `NaN` cell compares unequal.
* A click command terminates in one of four ways, captured by `Outcome`:
  normal completion producing the output table (`ok`), a `return 1` from
  the callback (`ret1`), a `sys.exit n` (`sysExit`), or an uncaught Python
  exception (`exn`).  `exitCode` models click running in its default
  standalone mode: the callback return value is discarded and `ctx.exit()`
  (code 0) is called, `sys.exit n` exits with `n`, and an uncaught
  exception aborts the interpreter with exit status 1.
* `pandas.DataFrame.sample(n, random_state=seed)` draws `n` distinct row
  positions without replacement by taking a prefix of a pseudo-random
  permutation of the positions, determined entirely by `seed`; it raises
  when `n` exceeds the population.  The numpy Mersenne-Twister generator is
  modelled by `npPermutation`: a deterministic, seed-determined permutation
  of the positions (implemented by sorting positions by a mixing key).
  The model is faithful in what the proofs use: it is a pure function of
  `(seed, population size)`, it is a permutation, its order is the
  generator order rather than positional order, and sampling more than the
  population is an error.
-/

/-- A cell value: a string, or the missing value (pandas `NaN`). -/
inductive Val where
  | str : String → Val
  | na : Val
deriving DecidableEq, Repr

/-- An in-memory table: ordered column names and ordered rows; each row is a
list of cells aligned positionally with `cols`. -/
structure Table where
  cols : List String
  rows : List (List Val)
deriving DecidableEq, Repr

/-- Cell of a row at column position `i`; out-of-range reads are `NaN`. -/
def cellAt (r : List Val) (i : Nat) : Val :=
  r.getD i Val.na

/-- Position of column `c` in the table (meaningful when `c ∈ t.cols`). -/
def colIdx (t : Table) (c : String) : Nat :=
  t.cols.findIdx (fun x => decide (x = c))

/-- Splitting accumulator for `pySplit`: `acc` holds the current piece in
reverse. -/
def splitCommaChars : List Char → List Char → List String
  | [], acc => [String.mk acc.reverse]
  | c :: cs, acc =>
    if c = ',' then String.mk acc.reverse :: splitCommaChars cs []
    else splitCommaChars cs (c :: acc)

/-- Python `s.split(",")`: split at every comma, keeping empty pieces; the
empty string yields `[""]`. -/
def pySplit (s : String) : List String :=
  splitCommaChars s.toList []

/-- Whitespace as stripped by Python `str.strip()`. -/
def isSpaceChar (c : Char) : Bool :=
  c = ' ' ∨ c = '\t' ∨ c = '\n' ∨ c = '\r'

/-- Python `x.strip()`: drop leading and trailing whitespace. -/
def pyStrip (s : String) : String :=
  String.mk (((s.toList.dropWhile isSpaceChar).reverse.dropWhile isSpaceChar).reverse)

/-- pandas `series.isin(listOfStrings)`: `NaN` is never a member. -/
def isinStrs (v : Val) (ss : List String) : Bool :=
  match v with
  | Val.str x => decide (x ∈ ss)
  | Val.na => false

/-- `include_list.split(",") if include_list is not None else []` — the raw
comma split used by `merge` and `random_downsample`; no trimming, no
de-duplication. -/
def splitOpt : Option String → List String
  | none => []
  | some s => pySplit s

/-- How a click command invocation ends. -/
inductive Outcome (α : Type) where
  | ok : α → Outcome α
  | ret1 : Outcome α
  | sysExit : Nat → Outcome α
  | exn : String → Outcome α
deriving DecidableEq, Repr

/-- Process exit status of a click command in standalone mode: the callback
return value (`return 1` included) is discarded and click calls
`ctx.exit()`, so normal completion and `ret1` exit 0; `sys.exit n` exits
`n`; an uncaught exception exits 1. -/
def exitCode {α : Type} : Outcome α → Nat
  | Outcome.ok _ => 0
  | Outcome.ret1 => 0
  | Outcome.sysExit c => c
  | Outcome.exn _ => 1

/-- Key tuple of a row across the column positions `idxs`
(`df.drop_duplicates(subset=columns)` compares these tuples; `NaN` equals
`NaN` there, as in pandas duplicated). -/
def keyOf (idxs : List Nat) (r : List Val) : List Val :=
  idxs.map (fun i => cellAt r i)

/-- Keep-first de-duplication by key tuple: a row is kept iff its key is not
in `seen` and no earlier kept row introduced it. -/
def dedupBy (idxs : List Nat) : List (List Val) → List (List Val) → List (List Val)
  | [], _ => []
  | r :: rest, seen =>
    if keyOf idxs r ∈ seen then dedupBy idxs rest seen
    else r :: dedupBy idxs rest (keyOf idxs r :: seen)

/-- The `deduplicate` command: split `--columns` on commas and strip each
element; `sys.exit(1)` if any is not a table column; otherwise
`df.drop_duplicates(subset=columns)` (keep first occurrence). -/
def deduplicate (t : Table) (columnsArg : String) : Outcome Table :=
  let columns := (pySplit columnsArg).map (fun x => pyStrip x)
  if columns.all (fun c => decide (c ∈ t.cols)) then
    Outcome.ok ⟨t.cols, dedupBy (columns.map (fun c => colIdx t c)) t.rows []⟩
  else Outcome.sysExit 1

/-- The column positions `deduplicate` keys on: the trimmed comma-split of
`--columns`, resolved to positions. -/
def keyIdxs (t : Table) (columnsArg : String) : List Nat :=
  ((pySplit columnsArg).map (fun x => pyStrip x)).map (fun c => colIdx t c)

/-- The `remove` command: `return 1` when the label column is absent;
otherwise keep exactly the rows whose label is not in
`remove_list.split(",")` (raw split, no trimming). -/
def remove (t : Table) (labelColumn : String) (removeList : String) : Outcome Table :=
  if labelColumn ∈ t.cols then
    let i := colIdx t labelColumn
    Outcome.ok ⟨t.cols, t.rows.filter (fun r => !isinStrs (cellAt r i) (pySplit removeList))⟩
  else Outcome.ret1

/-- `df[label_column].unique()`: distinct label values in first-occurrence
order, `NaN` included. -/
def uniqueLabels (t : Table) (i : Nat) : List Val :=
  (t.rows.map (fun r => cellAt r i)).dedup

/-- The values of `set(include + exclude)` that do not occur in the label
column — the `merge` validation reports one line per element of this
list before aborting. -/
def mergeMissing (t : Table) (i : Nat) (includes excludes : List String) : List String :=
  ((includes ++ excludes).dedup).filter (fun lbl => decide (¬ Val.str lbl ∈ uniqueLabels t i))

/-- Message of the `ValueError` raised by `Series.__bool__`, which Python
`and` on two pandas Series always triggers. -/
def seriesAndMsg : String :=
  "The truth value of a Series is ambiguous"

/-- The `merge` command.  In order, as in the source: `return 1` when both
lists are empty; `return 1` when the label column is absent; `return 1`
when any value of `set(include + exclude)` is missing from the label
column (after reporting every missing value); then the selection —
`include and exclude both non-empty` evaluates
`df[c].isin(include) and ~df[c].isin(exclude)`, where Python `and` calls
`bool()` on the left Series and `Series.__bool__` raises `ValueError`
unconditionally, so that branch is an uncaught exception; exclude-only
selects labels not in `exclude`; include-only selects labels in
`include`; selected rows get the label cell overwritten with
`new_label_name`. -/
def merge (t : Table) (labelColumn : String) (includeList excludeList : Option String)
    (newLabelName : String) : Outcome Table :=
  let includes := splitOpt includeList
  let excludes := splitOpt excludeList
  if includes.length < 1 ∧ excludes.length < 1 then Outcome.ret1
  else if labelColumn ∈ t.cols then
    let i := colIdx t labelColumn
    if (mergeMissing t i includes excludes).length > 0 then Outcome.ret1
    else if includes.length > 0 ∧ excludes.length > 0 then Outcome.exn seriesAndMsg
    else
      let idx : List Val → Bool :=
        if excludes.length > 0 then fun r => !isinStrs (cellAt r i) excludes
        else fun r => isinStrs (cellAt r i) includes
      Outcome.ok ⟨t.cols, t.rows.map (fun r => if idx r then r.set i (Val.str newLabelName) else r)⟩
  else Outcome.ret1

/-- Deterministic mixing key driving the modelled generator. -/
def randKey (seed j : Nat) : Nat :=
  (2654435761 * (seed + 1) * (j + 7) + 40503 * (j + 1) * (j + 1) + seed) % 1000003

/-- Model of the numpy seeded permutation behind
`sample(n, random_state=seed)` without replacement: a pseudo-random,
seed-determined permutation of the row positions `0, …, m-1`, here obtained
by sorting positions by `randKey` (ties broken by position). -/
def npPermutation (seed m : Nat) : List Nat :=
  List.insertionSort
    (fun a b => randKey seed a < randKey seed b ∨ (randKey seed a = randKey seed b ∧ a ≤ b))
    (List.range m)

/-- Message of the `ValueError` pandas raises when sampling more rows than
the population without replacement. -/
def samplePopMsg : String :=
  "Cannot take a larger sample than population when replace is False"

/-- `subset.sample(maximum, random_state=seed)`: error when `maximum`
exceeds the population; otherwise the rows at the first `maximum` positions
of the seed-determined permutation, in generator order. -/
def sampleRows (seed maximum : Nat) (rows : List (List Val)) : Except String (List (List Val)) :=
  if maximum ≤ rows.length then
    Except.ok (((npPermutation seed rows.length).take maximum).map (fun j => rows.getD j []))
  else Except.error samplePopMsg

/-- The sample drawn for label `lbl` from the current table state:
`df[df[label_column] == lbl].sample(maximum, random_state=random_state)`.
It depends only on the label-`lbl` subset (in positional order), `maximum`
and the seed. -/
def labelSample (i maximum seed : Nat) (lbl : String) (rows : List (List Val)) :
    Except String (List (List Val)) :=
  sampleRows seed maximum (rows.filter (fun r => decide (cellAt r i = Val.str lbl)))

/-- One iteration of the `random_downsample` loop: sample the label-`lbl`
rows, then rebuild as `df[df[label_column] != lbl]` followed by the
sample (`df.append(sample)`). -/
def downsampleStep (i maximum seed : Nat) (lbl : String) (rows : List (List Val)) :
    Except String (List (List Val)) :=
  match labelSample i maximum seed lbl rows with
  | Except.error e => Except.error e
  | Except.ok sample =>
      Except.ok (rows.filter (fun r => decide (¬ cellAt r i = Val.str lbl)) ++ sample)

/-- The `for lbl in include:` loop; each label is processed against the
table state left by the previous iteration. -/
def downsampleLoop (i maximum seed : Nat) : List String → List (List Val) →
    Except String (List (List Val))
  | [], rows => Except.ok rows
  | lbl :: rest, rows =>
    match downsampleStep i maximum seed lbl rows with
    | Except.error e => Except.error e
    | Except.ok rows2 => downsampleLoop i maximum seed rest rows2

/-- The `random_downsample` command: `return 1` on an empty include list;
`return 1` when the label column is absent; otherwise run the per-label
sampling loop, an uncaught pandas `ValueError` aborting the process. -/
def random_downsample (t : Table) (labelColumn : String) (includeList : Option String)
    (maximum seed : Nat) : Outcome Table :=
  let includes := splitOpt includeList
  if includes.length < 1 then Outcome.ret1
  else if labelColumn ∈ t.cols then
    match downsampleLoop (colIdx t labelColumn) maximum seed includes t.rows with
    | Except.error e => Outcome.exn e
    | Except.ok rows2 => Outcome.ok ⟨t.cols, rows2⟩
  else Outcome.ret1

/-! ## Concrete fixture tables -/

/-- Four rows with labels `A, B, C, A` — the worked example of the
MergeLabels intersection semantics. -/
def tA : Table :=
  ⟨["id", "lbl"],
   [[Val.str "1", Val.str "A"], [Val.str "2", Val.str "B"],
    [Val.str "3", Val.str "C"], [Val.str "4", Val.str "A"]]⟩

/-- Two rows labeled `X` and one labeled `B`. -/
def tX2 : Table :=
  ⟨["id", "lbl"],
   [[Val.str "1", Val.str "X"], [Val.str "2", Val.str "X"], [Val.str "3", Val.str "B"]]⟩

/-- Five rows labeled `X`. -/
def tX5 : Table :=
  ⟨["id", "lbl"],
   [[Val.str "1", Val.str "X"], [Val.str "2", Val.str "X"], [Val.str "3", Val.str "X"],
    [Val.str "4", Val.str "X"], [Val.str "5", Val.str "X"]]⟩

/-- Three one-column rows with a duplicated key value. -/
def tDup : Table :=
  ⟨["k"], [[Val.str "a"], [Val.str "b"], [Val.str "a"]]⟩

/-- A row labeled `Other` and a row with a missing (`NaN`) label. -/
def tNa : Table :=
  ⟨["id", "lbl"], [[Val.str "1", Val.str "Other"], [Val.str "2", Val.na]]⟩

/-- Row list whose `X`-subset (at column position 0) is `[[X],[q]]`-free:
used to compare samples across different surrounding tables. -/
def rows1C : List (List Val) :=
  [[Val.str "X", Val.str "1"], [Val.str "Y", Val.str "2"], [Val.str "X", Val.str "3"]]

/-- A different row list with the same `X`-subset as `rows1C` in the same
positional order, but different non-`X` rows. -/
def rows2C : List (List Val) :=
  [[Val.str "Z", Val.str "9"], [Val.str "X", Val.str "1"], [Val.str "X", Val.str "3"],
   [Val.str "W", Val.str "7"]]

/-! ## Helper lemmas -/

theorem map_getD_range (l : List (List Val)) :
    (List.range l.length).map (fun j => l.getD j []) = l := by
  induction l with
  | nil => rfl
  | cons a l ih =>
    rw [List.length_cons, List.range_succ_eq_map, List.map_cons, List.map_map]
    have hcomp : ((fun j => (a :: l).getD j []) ∘ Nat.succ) = (fun j => l.getD j []) := by
      funext j
      exact List.getD_cons_succ
    rw [hcomp, ih]
    rfl

theorem npPermutation_perm (seed m : Nat) : (npPermutation seed m).Perm (List.range m) :=
  List.perm_insertionSort _ (List.range m)

theorem npPermutation_lt (seed m : Nat) : ∀ j ∈ npPermutation seed m, j < m := by
  intro j hj
  exact List.mem_range.mp ((npPermutation_perm seed m).mem_iff.mp hj)

theorem sampleRows_ok_mem {seed maximum : Nat} {sub sample : List (List Val)}
    (h : sampleRows seed maximum sub = Except.ok sample) : ∀ r ∈ sample, r ∈ sub := by
  unfold sampleRows at h
  split at h
  case isTrue hle =>
    have hs := Except.ok.inj h
    intro r hr
    rw [← hs] at hr
    obtain ⟨j, hj, rfl⟩ := List.mem_map.mp hr
    have hj2 : j ∈ npPermutation seed sub.length := List.mem_of_mem_take hj
    have hlt : j < sub.length := npPermutation_lt _ _ _ hj2
    rw [List.getD_eq_getElem _ _ hlt]
    exact List.getElem_mem hlt
  case isFalse hle => cases h

theorem sampleRows_error {seed maximum : Nat} {sub : List (List Val)} {e : String}
    (h : sampleRows seed maximum sub = Except.error e) : e = samplePopMsg := by
  unfold sampleRows at h
  split at h
  · cases h
  · exact (Except.error.inj h).symm

theorem sampleRows_full (seed : Nat) (sub : List (List Val)) :
    ∃ sample, sampleRows seed sub.length sub = Except.ok sample ∧ sample.Perm sub := by
  have hlen : (npPermutation seed sub.length).length = sub.length :=
    (npPermutation_perm _ _).length_eq.trans (List.length_range _)
  refine ⟨((npPermutation seed sub.length).take sub.length).map (fun j => sub.getD j []), ?_, ?_⟩
  · unfold sampleRows
    rw [if_pos (le_refl _)]
  · rw [List.take_of_length_le (le_of_eq hlen)]
    have h1 : ((npPermutation seed sub.length).map fun j => sub.getD j []).Perm
        ((List.range sub.length).map fun j => sub.getD j []) :=
      (npPermutation_perm _ _).map _
    rw [map_getD_range] at h1
    exact h1

theorem downsampleStep_ok {i maximum seed : Nat} {lbl : String} {rows rows2 : List (List Val)}
    (h : downsampleStep i maximum seed lbl rows = Except.ok rows2) :
    ∃ sample, rows2 = rows.filter (fun r => decide (¬ cellAt r i = Val.str lbl)) ++ sample ∧
      ∀ r ∈ sample, r ∈ rows.filter (fun r => decide (cellAt r i = Val.str lbl)) := by
  unfold downsampleStep at h
  cases hls : labelSample i maximum seed lbl rows with
  | error e => rw [hls] at h; cases h
  | ok sample =>
    rw [hls] at h
    unfold labelSample at hls
    exact ⟨sample, (Except.ok.inj h).symm, sampleRows_ok_mem hls⟩

theorem downsampleStep_error {i maximum seed : Nat} {lbl : String} {rows : List (List Val)}
    {e : String} (h : downsampleStep i maximum seed lbl rows = Except.error e) :
    e = samplePopMsg := by
  unfold downsampleStep at h
  cases hls : labelSample i maximum seed lbl rows with
  | error e2 =>
    rw [hls] at h
    have he : e2 = e := Except.error.inj h
    unfold labelSample at hls
    exact he ▸ sampleRows_error hls
  | ok sample => rw [hls] at h; cases h

theorem downsampleStep_absent {i maximum seed : Nat} {lbl lbl2 : String}
    {rows rows2 : List (List Val)}
    (h : downsampleStep i maximum seed lbl2 rows = Except.ok rows2)
    (habs : ∀ r ∈ rows, cellAt r i ≠ Val.str lbl) :
    ∀ r ∈ rows2, cellAt r i ≠ Val.str lbl := by
  obtain ⟨sample, rfl, hmem⟩ := downsampleStep_ok h
  intro r hr
  rcases List.mem_append.mp hr with h1 | h2
  · exact habs r (List.mem_of_mem_filter h1)
  · exact habs r (List.mem_of_mem_filter (hmem r h2))

theorem downsampleLoop_absent_error (i maximum seed : Nat) (lbls : List String)
    (rows : List (List Val)) (lbl : String) (hmax : 0 < maximum)
    (hmem : lbl ∈ lbls) (habs : ∀ r ∈ rows, cellAt r i ≠ Val.str lbl) :
    downsampleLoop i maximum seed lbls rows = Except.error samplePopMsg := by
  induction lbls generalizing rows with
  | nil => cases hmem
  | cons lbl2 rest ih =>
    cases hstep : downsampleStep i maximum seed lbl2 rows with
    | error e =>
      simp only [downsampleLoop, hstep]
      rw [downsampleStep_error hstep]
    | ok rows2 =>
      simp only [downsampleLoop, hstep]
      rcases List.mem_cons.mp hmem with heq | hmem2
      · exfalso
        subst heq
        unfold downsampleStep labelSample sampleRows at hstep
        have hfil : rows.filter (fun r => decide (cellAt r i = Val.str lbl)) = [] := by
          rw [List.filter_eq_nil_iff]
          intro r hr
          simpa using habs r hr
        rw [hfil] at hstep
        rw [if_neg (by simpa using Nat.not_le.mpr hmax)] at hstep
        cases hstep
      · exact ih rows2 hmem2 (downsampleStep_absent hstep habs)

theorem downsampleLoop_single (i maximum seed : Nat) (L : String) (rows : List (List Val)) :
    downsampleLoop i maximum seed [L] rows = downsampleStep i maximum seed L rows := by
  cases hstep : downsampleStep i maximum seed L rows with
  | error e => simp only [downsampleLoop, hstep]
  | ok rows2 => simp only [downsampleLoop, hstep]

/-! ## Claim theorems -/

/-- C1: with both include and exclude lists non-empty and all listed values
present, `merge` does not relabel anything: the selection expression
`df[c].isin(include) and ~df[c].isin(exclude)` triggers the unconditional
`Series.__bool__` `ValueError`, so on labels `[A,B,C,A]` with
include `{A,B}`, exclude `{B}` the command aborts with an exception instead
of producing `[new,B,C,new]`. -/
theorem c1_merge_intersection_raises :
    merge tA "lbl" (some "A,B") (some "B") "new" = Outcome.exn seriesAndMsg := by decide

/-- C2 counterexample: with maxCount 10 and only 5 rows labeled `X`,
`random_downsample` does not keep the 5 rows — `sample(10)` on a 5-row
subset raises, so the command aborts with the pandas population error. -/
theorem c2_counterexample :
    random_downsample tX5 "lbl" (some "X") 10 42 = Outcome.exn samplePopMsg := by decide

/-- C5 counterexample: with maxCount 0, an include value (`Z`) that occurs
nowhere in the label column does not make `random_downsample` fail: the
command succeeds and returns the table unchanged (sampling 0 rows from the
empty subset succeeds), so there is no upfront membership validation. -/
theorem c5_counterexample :
    random_downsample tA "lbl" (some "Z") 0 42 = Outcome.ok tA := by decide

/-- C6 counterexample: `remove` does not trim the comma-split elements.
With remove-list `"A, B"` the second element is `" B"`, so the row labeled
`B` survives; the logically identical trimmed list `"A,B"` removes it. -/
theorem c6_counterexample :
    remove tA "lbl" "A, B" =
      Outcome.ok ⟨tA.cols, [[Val.str "2", Val.str "B"], [Val.str "3", Val.str "C"]]⟩ ∧
    remove tA "lbl" "A,B" = Outcome.ok ⟨tA.cols, [[Val.str "3", Val.str "C"]]⟩ := by decide

/-- C8: the failure paths implemented with `return 1` exit with status 0,
not nonzero — click standalone mode discards the callback return value and
calls `ctx.exit()`: a missing label column in `remove` and `merge`, both
merge lists empty, a merge list value absent from the data, and an empty
`random_downsample` include list all terminate the process with exit
status 0.  Only `deduplicate` (which calls `sys.exit(1)`) exits nonzero. -/
theorem c8_return1_exits_zero :
    exitCode (remove tA "nope" "A") = 0 ∧
    exitCode (merge tA "nope" (some "A") none "new") = 0 ∧
    exitCode (merge tA "lbl" none none "new") = 0 ∧
    exitCode (merge tA "lbl" (some "Z") none "new") = 0 ∧
    exitCode (random_downsample tA "lbl" none 2 42) = 0 ∧
    exitCode (deduplicate tA "nope") = 1 := by decide

/-- C9 counterexample: relative order within the label-`L` subset is not
preserved.  On `tA` (labels `A,B,C,A`) with include `A`, maxCount 2 and
seed 42, the two `A` rows — `[1,A]` before `[4,A]` in the input — come back
in the order `[4,A], [1,A]`: the sample is emitted in generator order, not
positional order. -/
theorem c9_counterexample :
    random_downsample tA "lbl" (some "A") 2 42 =
      Outcome.ok ⟨tA.cols,
        [[Val.str "2", Val.str "B"], [Val.str "3", Val.str "C"],
         [Val.str "4", Val.str "A"], [Val.str "1", Val.str "A"]]⟩ ∧
    tA.rows.filter (fun r => decide (cellAt r (colIdx tA "lbl") = Val.str "A")) =
      [[Val.str "1", Val.str "A"], [Val.str "4", Val.str "A"]] := by decide

theorem random_downsample_single (t : Table) (c s L : String) (maximum seed : Nat)
    (hs : pySplit s = [L]) (hc : c ∈ t.cols) :
    random_downsample t c (some s) maximum seed =
      match downsampleStep (colIdx t c) maximum seed L t.rows with
      | Except.error e => Outcome.exn e
      | Except.ok rows2 => Outcome.ok ⟨t.cols, rows2⟩ := by
  simp only [random_downsample, splitOpt]
  rw [hs, if_neg (by simp), if_pos hc, downsampleLoop_single]

/-- C2 (amended): when the number of label-`L` rows is exactly maxCount,
`random_downsample` succeeds and keeps every row (the output rows are a
permutation of the input rows, the label-`L` block moved to the end and
emitted in generator order); when the count is strictly below maxCount the
sampler raises the pandas population error and the command aborts. -/
theorem c2_amended (t : Table) (c s L : String) (maximum seed : Nat)
    (hs : pySplit s = [L]) (hc : c ∈ t.cols) :
    ((t.rows.filter (fun r => decide (cellAt r (colIdx t c) = Val.str L))).length = maximum →
      ∃ rows2, random_downsample t c (some s) maximum seed = Outcome.ok ⟨t.cols, rows2⟩ ∧
        rows2.Perm t.rows) ∧
    ((t.rows.filter (fun r => decide (cellAt r (colIdx t c) = Val.str L))).length < maximum →
      random_downsample t c (some s) maximum seed = Outcome.exn samplePopMsg) := by
  have hrd := random_downsample_single t c s L maximum seed hs hc
  constructor
  · intro hlen
    obtain ⟨sample, hsm, hperm⟩ :=
      sampleRows_full seed (t.rows.filter (fun r => decide (cellAt r (colIdx t c) = Val.str L)))
    have hstep : downsampleStep (colIdx t c) maximum seed L t.rows = Except.ok
        (t.rows.filter (fun r => decide (¬ cellAt r (colIdx t c) = Val.str L)) ++ sample) := by
      unfold downsampleStep labelSample
      rw [← hlen, hsm]
    refine ⟨t.rows.filter (fun r => decide (¬ cellAt r (colIdx t c) = Val.str L)) ++ sample,
      ?_, ?_⟩
    · rw [hrd, hstep]
    · have h2 : (t.rows.filter (fun r => decide (¬ cellAt r (colIdx t c) = Val.str L)) ++
          sample).Perm
          (t.rows.filter (fun r => decide (¬ cellAt r (colIdx t c) = Val.str L)) ++
            t.rows.filter (fun r => decide (cellAt r (colIdx t c) = Val.str L))) :=
        List.Perm.append_left _ hperm
      have h3 := List.filter_append_perm
        (fun r => decide (¬ cellAt r (colIdx t c) = Val.str L)) t.rows
      have hfun : (fun r => !decide (¬ cellAt r (colIdx t c) = Val.str L)) =
          (fun r => decide (cellAt r (colIdx t c) = Val.str L)) := by
        funext r
        rw [decide_not, Bool.not_not]
      rw [hfun] at h3
      exact h2.trans h3
  · intro hlt
    rw [hrd]
    have hstep : downsampleStep (colIdx t c) maximum seed L t.rows =
        Except.error samplePopMsg := by
      unfold downsampleStep labelSample sampleRows
      rw [if_neg (by omega)]
    rw [hstep]

/-- C2 witness: on a table with exactly two `X` rows and maxCount 2 the
command succeeds and the output rows are a permutation of the input
rows. -/
theorem c2_amended_witness :
    ∃ rows2, random_downsample tX2 "lbl" (some "X") 2 42 = Outcome.ok ⟨tX2.cols, rows2⟩ ∧
      rows2.Perm tX2.rows :=
  (c2_amended tX2 "lbl" "X" "X" 2 42 (by decide) (by decide)).1 (by decide)

/-- C3: the sample drawn for a label is a pure function of the
`(subset, maxCount, seed)` triple: two tables whose label-`L` subsets agree
row-for-row in positional order yield exactly the same sample, whatever the
surrounding rows or the label column position; no generator state leaks
between invocations. -/
theorem c3_sample_deterministic (i1 i2 maximum seed : Nat) (lbl : String)
    (rows1 rows2 : List (List Val))
    (h : rows1.filter (fun r => decide (cellAt r i1 = Val.str lbl)) =
         rows2.filter (fun r => decide (cellAt r i2 = Val.str lbl))) :
    labelSample i1 maximum seed lbl rows1 = labelSample i2 maximum seed lbl rows2 := by
  unfold labelSample
  rw [h]

/-- C3 witness: two concrete tables with different non-`X` rows but the
same `X` subset get the same sample. -/
theorem c3_witness :
    labelSample 0 1 42 "X" rows1C = labelSample 0 1 42 "X" rows2C :=
  c3_sample_deterministic 0 0 1 42 "X" rows1C rows2C (by decide)

/-- C4: `merge` validates exhaustively before mutating: when the label
column exists and some value of the include/exclude union never occurs in
it, the command stops with `return 1` — no output table is produced and no
row is relabeled — and every absent value of the union (not just the
first) is in the reported `mergeMissing` list. -/
theorem c4_merge_validates (t : Table) (c : String)
    (includeList excludeList : Option String) (newLabelName lbl : String)
    (hc : c ∈ t.cols)
    (hmem : lbl ∈ splitOpt includeList ++ splitOpt excludeList)
    (habs : ¬ Val.str lbl ∈ uniqueLabels t (colIdx t c)) :
    merge t c includeList excludeList newLabelName = Outcome.ret1 ∧
    ∀ x ∈ splitOpt includeList ++ splitOpt excludeList,
      ¬ Val.str x ∈ uniqueLabels t (colIdx t c) →
        x ∈ mergeMissing t (colIdx t c) (splitOpt includeList) (splitOpt excludeList) := by
  have hrep : ∀ x ∈ splitOpt includeList ++ splitOpt excludeList,
      ¬ Val.str x ∈ uniqueLabels t (colIdx t c) →
        x ∈ mergeMissing t (colIdx t c) (splitOpt includeList) (splitOpt excludeList) := by
    intro x hx hax
    unfold mergeMissing
    rw [List.mem_filter]
    exact ⟨List.mem_dedup.mpr hx, by simpa using hax⟩
  refine ⟨?_, hrep⟩
  have hne : ¬ ((splitOpt includeList).length < 1 ∧ (splitOpt excludeList).length < 1) := by
    rintro ⟨h1, h2⟩
    have hlen : (splitOpt includeList ++ splitOpt excludeList).length = 0 := by
      rw [List.length_append]
      omega
    rw [List.length_eq_zero] at hlen
    rw [hlen] at hmem
    cases hmem
  have hpos : (mergeMissing t (colIdx t c) (splitOpt includeList) (splitOpt excludeList)).length
      > 0 :=
    List.length_pos.mpr (List.ne_nil_of_mem (hrep lbl hmem habs))
  simp only [merge]
  rw [if_neg hne, if_pos hc, if_pos hpos]

/-- C4 witness: on labels `A,B,C,A` with include list `Z,Q` (both absent)
and exclude list `B`, merge stops with `return 1` and reports every absent
union value. -/
theorem c4_witness :
    merge tA "lbl" (some "Z,Q") (some "B") "new" = Outcome.ret1 ∧
    ∀ x ∈ splitOpt (some "Z,Q") ++ splitOpt (some "B"),
      ¬ Val.str x ∈ uniqueLabels tA (colIdx tA "lbl") →
        x ∈ mergeMissing tA (colIdx tA "lbl") (splitOpt (some "Z,Q")) (splitOpt (some "B")) :=
  c4_merge_validates tA "lbl" (some "Z,Q") (some "B") "new" "Z"
    (by decide) (by decide) (by decide)

/-- C5 (amended): `random_downsample` has no upfront membership validation.
When maxCount is positive and some include value never occurs in the label
column, the per-label sampling raises the pandas population error and the
command aborts with an uncaught exception, producing no output table; with
maxCount 0 such a value is silently accepted (see the counterexample). -/
theorem c5_amended (t : Table) (c : String) (includeList : Option String)
    (maximum seed : Nat) (lbl : String)
    (hmax : 0 < maximum) (hc : c ∈ t.cols)
    (hmem : lbl ∈ splitOpt includeList)
    (habs : ∀ r ∈ t.rows, cellAt r (colIdx t c) ≠ Val.str lbl) :
    random_downsample t c includeList maximum seed = Outcome.exn samplePopMsg := by
  have hloop := downsampleLoop_absent_error (colIdx t c) maximum seed (splitOpt includeList)
    t.rows lbl hmax hmem habs
  have hlen : ¬ (splitOpt includeList).length < 1 := by
    intro hl
    rw [Nat.lt_one_iff, List.length_eq_zero] at hl
    rw [hl] at hmem
    cases hmem
  simp only [random_downsample]
  rw [if_neg hlen, if_pos hc, hloop]

/-- C5 witness: include value `Z` absent from labels `A,B,C,A`, maxCount 1:
the command aborts with the population error. -/
theorem c5_amended_witness :
    random_downsample tA "lbl" (some "Z") 1 42 = Outcome.exn samplePopMsg :=
  c5_amended tA "lbl" (some "Z") 1 42 "Z" (by decide) (by decide) (by decide) (by decide)

/-- C6 (amended): the include/exclude/remove lists are consumed as the raw
comma split of the user string: elements keep their surrounding whitespace
and duplicate entries are not collapsed (membership tests are merely
insensitive to them).  `remove` keeps exactly the rows whose label fails
exact membership in `pySplit removeList`, and `merge` and
`random_downsample` parse their lists with the same raw split
(`splitOpt`); only `deduplicate`'s column list is trimmed. -/
theorem c6_amended (t : Table) (c s : String) (hc : c ∈ t.cols) :
    (∃ kept, remove t c s = Outcome.ok ⟨t.cols, kept⟩ ∧
      ∀ r, (r ∈ kept ↔ r ∈ t.rows ∧ isinStrs (cellAt r (colIdx t c)) (pySplit s) = false)) ∧
    splitOpt (some s) = pySplit s := by
  refine ⟨⟨t.rows.filter (fun r => !isinStrs (cellAt r (colIdx t c)) (pySplit s)), ?_, ?_⟩, rfl⟩
  · simp only [remove]
    rw [if_pos hc]
  · intro r
    rw [List.mem_filter]
    simp [Bool.not_eq_true']

/-- C6 witness: concrete instance on labels `A,B,C,A` with remove list
`"A, B"` (untrimmed second element). -/
theorem c6_amended_witness :
    (∃ kept, remove tA "lbl" "A, B" = Outcome.ok ⟨tA.cols, kept⟩ ∧
      ∀ r, (r ∈ kept ↔ r ∈ tA.rows ∧
        isinStrs (cellAt r (colIdx tA "lbl")) (pySplit "A, B") = false)) ∧
    splitOpt (some "A, B") = pySplit "A, B" :=
  c6_amended tA "lbl" "A, B" (by decide)

theorem dedupBy_mem {idxs : List Nat} :
    ∀ (l seen : List (List Val)), ∀ r ∈ dedupBy idxs l seen,
      r ∈ l ∧ ¬ keyOf idxs r ∈ seen := by
  intro l
  induction l with
  | nil =>
    intro seen r hr
    cases hr
  | cons a l ih =>
    intro seen r hr
    unfold dedupBy at hr
    split at hr
    case isTrue h =>
      obtain ⟨h1, h2⟩ := ih seen r hr
      exact ⟨List.mem_cons_of_mem _ h1, h2⟩
    case isFalse h =>
      rcases List.mem_cons.mp hr with rfl | hr2
      · exact ⟨List.mem_cons_self _ _, h⟩
      · obtain ⟨h1, h2⟩ := ih _ r hr2
        exact ⟨List.mem_cons_of_mem _ h1, fun hs => h2 (List.mem_cons_of_mem _ hs)⟩

theorem dedupBy_nodup_keys {idxs : List Nat} :
    ∀ (l seen : List (List Val)), ((dedupBy idxs l seen).map (keyOf idxs)).Nodup := by
  intro l
  induction l with
  | nil =>
    intro seen
    simp [dedupBy]
  | cons a l ih =>
    intro seen
    unfold dedupBy
    split
    case isTrue h => exact ih seen
    case isFalse h =>
      rw [List.map_cons, List.nodup_cons]
      refine ⟨?_, ih _⟩
      intro hmem
      obtain ⟨r, hr, hkey⟩ := List.mem_map.mp hmem
      apply (dedupBy_mem l _ r hr).2
      rw [hkey]
      exact List.mem_cons_self _ _

theorem dedupBy_first {idxs : List Nat} :
    ∀ (l seen : List (List Val)), ∀ r ∈ dedupBy idxs l seen,
      l.find? (fun r2 => decide (keyOf idxs r2 = keyOf idxs r)) = some r := by
  intro l
  induction l with
  | nil =>
    intro seen r hr
    cases hr
  | cons a l ih =>
    intro seen r hr
    unfold dedupBy at hr
    split at hr
    case isTrue h =>
      have h2 := (dedupBy_mem l seen r hr).2
      have hne : ¬ keyOf idxs a = keyOf idxs r := by
        intro he
        exact h2 (he ▸ h)
      rw [List.find?_cons_of_neg, ih seen r hr]
      simpa using hne
    case isFalse h =>
      rcases List.mem_cons.mp hr with rfl | hr2
      · rw [List.find?_cons_of_pos]
        simp
      · have h2 := (dedupBy_mem l _ r hr2).2
        have hne : ¬ keyOf idxs a = keyOf idxs r := by
          intro he
          apply h2
          rw [← he]
          exact List.mem_cons_self _ _
        rw [List.find?_cons_of_neg, ih _ r hr2]
        simpa using hne

theorem dedupBy_complete {idxs : List Nat} :
    ∀ (l seen : List (List Val)), ∀ r ∈ l, ¬ keyOf idxs r ∈ seen →
      ∃ r2 ∈ dedupBy idxs l seen, keyOf idxs r2 = keyOf idxs r := by
  intro l
  induction l with
  | nil =>
    intro seen r hr
    cases hr
  | cons a l ih =>
    intro seen r hr hs
    unfold dedupBy
    split
    case isTrue h =>
      rcases List.mem_cons.mp hr with rfl | hr2
      · exact absurd h hs
      · exact ih seen r hr2 hs
    case isFalse h =>
      rcases List.mem_cons.mp hr with rfl | hr2
      · exact ⟨r, List.mem_cons_self _ _, rfl⟩
      · by_cases hk : keyOf idxs r = keyOf idxs a
        · exact ⟨a, List.mem_cons_self _ _, hk.symm⟩
        · have hnotin : ¬ keyOf idxs r ∈ keyOf idxs a :: seen := by
            intro hmem
            rcases List.mem_cons.mp hmem with he | hseen
            · exact hk he
            · exact hs hseen
          obtain ⟨r2, hr2d, hk2⟩ := ih (keyOf idxs a :: seen) r hr2 hnotin
          exact ⟨r2, List.mem_cons_of_mem _ hr2d, hk2⟩

/-- C7: with a non-empty key-column list whose (trimmed) columns all exist,
`deduplicate` succeeds and its output has pairwise distinct key tuples;
every surviving row is the first row of the input carrying its key tuple
(later duplicates are dropped), and every input row's key tuple is
represented by a survivor (first occurrences are never dropped). -/
theorem c7_deduplicate_first (t : Table) (columnsArg : String)
    (_hne : (pySplit columnsArg).map pyStrip ≠ [])
    (hcols : ∀ c ∈ (pySplit columnsArg).map pyStrip, c ∈ t.cols) :
    ∃ out, deduplicate t columnsArg = Outcome.ok ⟨t.cols, out⟩ ∧
      (out.map (keyOf (keyIdxs t columnsArg))).Nodup ∧
      (∀ r ∈ out, t.rows.find?
        (fun r2 => decide (keyOf (keyIdxs t columnsArg) r2 = keyOf (keyIdxs t columnsArg) r)) =
        some r) ∧
      (∀ r ∈ t.rows, ∃ r2 ∈ out,
        keyOf (keyIdxs t columnsArg) r2 = keyOf (keyIdxs t columnsArg) r) := by
  refine ⟨dedupBy (keyIdxs t columnsArg) t.rows [], ?_, ?_, ?_, ?_⟩
  · simp only [deduplicate]
    rw [if_pos ?_]
    · rfl
    · rw [List.all_eq_true]
      intro c hcm
      exact decide_eq_true (hcols c hcm)
  · exact dedupBy_nodup_keys t.rows []
  · intro r hr
    exact dedupBy_first t.rows [] r hr
  · intro r hr
    exact dedupBy_complete t.rows [] r hr (by simp)

/-- C7 witness: key column `k` over rows `a, b, a` — the second `a` row is
dropped, the first kept. -/
theorem c7_witness :
    ∃ out, deduplicate tDup "k" = Outcome.ok ⟨tDup.cols, out⟩ ∧
      (out.map (keyOf (keyIdxs tDup "k"))).Nodup ∧
      (∀ r ∈ out, tDup.rows.find?
        (fun r2 => decide (keyOf (keyIdxs tDup "k") r2 = keyOf (keyIdxs tDup "k") r)) =
        some r) ∧
      (∀ r ∈ tDup.rows, ∃ r2 ∈ out,
        keyOf (keyIdxs tDup "k") r2 = keyOf (keyIdxs tDup "k") r) :=
  c7_deduplicate_first tDup "k" (by decide) (by decide)

/-- C9 (amended): for a single-label include list, on success the rebuilt
table is exactly the rows not labeled `L` in their prior relative order (a
filter of the input) followed by the sampled label-`L` rows; every sampled
row comes from the label-`L` subset, but the sample is emitted in generator
order, which need not be the subset's positional order (see the
counterexample). -/
theorem c9_amended (t : Table) (c s L : String) (maximum seed : Nat) (t2 : Table)
    (hs : pySplit s = [L]) (hc : c ∈ t.cols)
    (hok : random_downsample t c (some s) maximum seed = Outcome.ok t2) :
    ∃ sample,
      t2 = ⟨t.cols,
        t.rows.filter (fun r => decide (¬ cellAt r (colIdx t c) = Val.str L)) ++ sample⟩ ∧
      ∀ r ∈ sample, r ∈ t.rows.filter (fun r => decide (cellAt r (colIdx t c) = Val.str L)) := by
  rw [random_downsample_single t c s L maximum seed hs hc] at hok
  cases hstep : downsampleStep (colIdx t c) maximum seed L t.rows with
  | error e =>
    rw [hstep] at hok
    cases hok
  | ok rows2 =>
    rw [hstep] at hok
    have ht2 : Table.mk t.cols rows2 = t2 := Outcome.ok.inj hok
    obtain ⟨sample, hr2, hmem⟩ := downsampleStep_ok hstep
    refine ⟨sample, ?_, hmem⟩
    rw [← ht2, hr2]

/-- C9 witness: the concrete downsample of label `A` on labels `A,B,C,A`
with maxCount 2 and seed 42 decomposes as non-`A` rows followed by a sample
drawn from the `A` subset. -/
theorem c9_amended_witness :
    ∃ sample,
      (⟨tA.cols,
        [[Val.str "2", Val.str "B"], [Val.str "3", Val.str "C"],
         [Val.str "4", Val.str "A"], [Val.str "1", Val.str "A"]]⟩ : Table) =
        ⟨tA.cols,
          tA.rows.filter (fun r => decide (¬ cellAt r (colIdx tA "lbl") = Val.str "A")) ++
            sample⟩ ∧
      ∀ r ∈ sample,
        r ∈ tA.rows.filter (fun r => decide (cellAt r (colIdx tA "lbl") = Val.str "A")) :=
  c9_amended tA "lbl" "A" "A" 2 42 _ (by decide) (by decide) (by decide)

/-- C10: with only the exclude list non-empty (and its values all present),
a row whose label cell is missing (`NaN`) satisfies the
not-in-excludeSet selection — `isin` is false for `NaN` — so `merge`
overwrites its label cell with the new label; missing-label rows are
relabeled, not skipped. -/
theorem c10_merge_na_relabeled (t : Table) (c : String) (excludeList : Option String)
    (newLabelName : String) (n : Nat) (r : List Val)
    (hc : c ∈ t.cols)
    (hne : 0 < (splitOpt excludeList).length)
    (hval : mergeMissing t (colIdx t c) [] (splitOpt excludeList) = [])
    (hr : t.rows[n]? = some r)
    (hna : cellAt r (colIdx t c) = Val.na) :
    ∃ out, merge t c none excludeList newLabelName = Outcome.ok ⟨t.cols, out⟩ ∧
      out[n]? = some (r.set (colIdx t c) (Val.str newLabelName)) := by
  simp only [merge]
  rw [if_neg ?hboth, if_pos hc, if_neg ?hmis, if_neg ?hand]
  case hboth =>
    rintro ⟨-, h2⟩
    omega
  case hmis =>
    intro hpos
    have e : mergeMissing t (colIdx t c) (splitOpt none) (splitOpt excludeList) = [] := hval
    rw [e] at hpos
    simp at hpos
  case hand =>
    rintro ⟨h1, -⟩
    exact absurd h1 (by decide)
  simp only [if_pos hne]
  refine ⟨_, rfl, ?_⟩
  rw [List.getElem?_map, hr]
  simp [hna, isinStrs]

/-- C10 witness: on a table with an `Other` row and a `NaN`-labeled row,
excluding `Other` relabels the `NaN` row to the new label. -/
theorem c10_witness :
    ∃ out, merge tNa "lbl" none (some "Other") "new" = Outcome.ok ⟨tNa.cols, out⟩ ∧
      out[1]? = some ([Val.str "2", Val.na].set (colIdx tNa "lbl") (Val.str "new")) :=
  c10_merge_na_relabeled tNa "lbl" (some "Other") "new" 1 [Val.str "2", Val.na]
    (by decide) (by decide) (by decide) (by decide) (by decide)
